import Mathlib

/-!
Verification development for the SharePoint bulk-ingestion pipeline
(src/sharepoint_bulk_ingestion).  The Python source is shallowly embedded:

* checkpoint log files (processed items / processed drives / error items)
  become in-memory lists of strings, appended on the right;
* the remote SharePoint hierarchy becomes an inductive tree of nodes whose
  folder children are grouped into pages (one page per HTTP page request);
* per-item content downloads become environment functions from request
  index to an HTTP-style response record;
* the AstraDB vector store write becomes an environment function from
  attempt index to an attempt result;
* time (token expiry) is abstracted to validity flags, and every network
  exchange is counted in the state so that claims about "no network call"
  and "page request" counts are expressible.

All definitions are computable and recursion is structural, so concrete
runs evaluate by rfl / decide / simp.
-/

/-- Details record produced for one SharePoint item, mirroring the dict
built by SharePointHandler._extract_item_details.  The extension field is
an Option because the Python dict only carries the key for non-folders. -/
structure ItemDetails where
  id : String
  name : String
  site_id : String
  drive_id : String
  drive_name : String
  path : String
  lastModifiedDateTime : Option String
  is_folder : Bool
  extension : Option String
deriving DecidableEq, Repr

/-- Error record appended to the error items file by mark_item_as_error,
mirroring the item_error_details dict of the source. -/
structure ErrorRec where
  site_id : String
  drive_id : String
  item_id : String
  drive_name : String
  path : String
deriving DecidableEq, Repr

/-- A node of the remote drive hierarchy.  Folder children are grouped
into pages: the Graph API returns one page per request, chained by a
continuation link.  This is the environment the traversal walks. -/
inductive Node where
  | file (id name : String) (lastModified : Option String)
  | folder (id name : String) (lastModified : Option String)
      (pages : List (List Node))

/-- Name of a node (the raw item name field). -/
def nodeName : Node → String
  | .file _ n _ => n
  | .folder _ n _ _ => n

/-- Identifier of a node (the raw item id field). -/
def nodeId : Node → String
  | .file i _ _ => i
  | .folder i _ _ _ => i

/-- Last-modified stamp of a node. -/
def nodeLastModified : Node → Option String
  | .file _ _ lm => lm
  | .folder _ _ lm _ => lm

/-- Whether the raw item dict carries a folder facet (the source tests
membership of the key "folder" in the item dict). -/
def nodeIsFolder : Node → Bool
  | .file _ _ _ => false
  | .folder _ _ _ _ => true

/-- Index of the last dot in a character list, if any. -/
def lastDotIdx : List Char → Option Nat
  | [] => none
  | c :: rest =>
    match lastDotIdx rest with
    | some i => some (i + 1)
    | none => if c = '.' then some 0 else none

/-- Extension part of os.path.splitext applied to a bare file name:
the suffix from the last dot, unless every character before that dot is
itself a dot (so ".bashrc" has no extension). -/
def splitextExt (name : String) : String :=
  let cs := name.toList
  match lastDotIdx cs with
  | none => ""
  | some i =>
    if (cs.take i).any (fun c => c ≠ '.') then String.mk (cs.drop i) else ""

/-- Static file-extension whitelist hardcoded in SharePointHandler. -/
def white_list_file_extensions : List String :=
  [".csv", ".doc", ".docx", ".eml", ".epub", ".json", ".html", ".msg",
   ".odt", ".ogg", ".pdf", ".pptx", ".ps", ".rtf", ".tiff", ".txt",
   ".xlsx", ".xls"]

/-- Static drive-name whitelist hardcoded in sharepoint_integration. -/
def drive_white_list : List String := ["SBX - Bid Respository"]

/-- Membership test on a checkpoint log file: has_been_processed reads the
file lines and tests membership; a missing file reads as empty. -/
def has_been_processed (log : List String) (item_id : String) : Bool :=
  log.contains item_id

/-- Append of an id to a checkpoint log file (mark_item_as_processed). -/
def mark_item_as_processed (log : List String) (item_id : String) :
    List String :=
  log ++ [item_id]

/-- Deletion of the processed-items file (clear_processed_items_record):
a later membership test reads the missing file as empty. -/
def clear_processed_items_record : List String := []

/-- Translation of SharePointHandler._extract_item_details: derives the
item path from the parent path (the source formats path/name unless the
parent path is the root "/", in which case it formats /name), reads the
folder facet, and sets the extension key only for non-folders. -/
def _extract_item_details (n : Node) (site_id drive_id drive_name : String)
    (path : String) : ItemDetails :=
  let item_path :=
    if path = "/" then "/" ++ nodeName n else path ++ "/" ++ nodeName n
  { id := nodeId n
    name := nodeName n
    site_id := site_id
    drive_id := drive_id
    drive_name := drive_name
    path := item_path
    lastModifiedDateTime := nodeLastModified n
    is_folder := nodeIsFolder n
    extension := if nodeIsFolder n then none else some (splitextExt (nodeName n)) }

/-- The filter predicate used both by the soft-cap count inside the
traversal and by the orchestrator item filter: a non-folder whose
extension is in the whitelist (the source short-circuits so the extension
key is only read for non-folders). -/
def whitelistedFile (d : ItemDetails) : Bool :=
  !d.is_folder && white_list_file_extensions.contains (d.extension.getD "")

/-- Context of one call to get_items_in_item_recursive: the drive being
walked, the checkpoint logs as read at call time, the soft cap, and the
dry-run flag.  max_items is an Int because the source uses -1 to disable
the cap. -/
structure EnumCtx where
  siteId : String
  driveId : String
  driveName : String
  processedItems : List String
  processedDrives : List String
  maxItems : Int
  dryRun : Bool
deriving DecidableEq, Repr

/-- Mutable observables of the traversal: the accumulating items list, the
number of child-page requests issued, the number of token exchanges, and
the validity of the two cached tokens (time is abstracted to a validity
flag; an exchange is assumed to succeed and make the token valid). -/
structure EnumSt where
  items : List ItemDetails
  pageRequests : Nat
  authCalls : Nat
  tokenUserValid : Bool
  tokenAdminValid : Bool
deriving DecidableEq, Repr

/-- Translation of check_token: a no-op in dry-run mode; otherwise each
expired token is refreshed by one authentication exchange. -/
def check_token (dryRun : Bool) (st : EnumSt) : EnumSt :=
  if dryRun then st
  else
    let st :=
      if st.tokenUserValid then st
      else { st with authCalls := st.authCalls + 1, tokenUserValid := true }
    if st.tokenAdminValid then st
    else { st with authCalls := st.authCalls + 1, tokenAdminValid := true }

/-- First canned item returned by the dry-run branch of
get_items_in_item_recursive. -/
def dryRunItem1 (site_id drive_id : String) : ItemDetails :=
  { id := "01CAE3RJCO7FOOGHJ5U5B2IA2IZ27HC2U7"
    name := "Associate Contractor Forms"
    site_id := site_id
    drive_id := drive_id
    drive_name := "SBX - ISO Compliance Records"
    path := "/Forms and Templates/Associate Contractor Forms"
    lastModifiedDateTime := some "2023-10-18T14:17:58Z"
    is_folder := true
    extension := none }

/-- Second canned item returned by the dry-run branch of
get_items_in_item_recursive. -/
def dryRunItem2 (site_id drive_id : String) : ItemDetails :=
  { id := "01CAE3RJCCYTIWX7N3SVG3SKHAKG5YR5UG"
    name := "01. Associate CFSA (Deliv) TEMPLATE. March 2022.docx"
    site_id := site_id
    drive_id := drive_id
    drive_name := "SBX - ISO Compliance Records"
    path := "/Forms and Templates/Associate Contractor Forms/01. Associate CFSA (Deliv) TEMPLATE. March 2022.docx"
    lastModifiedDateTime := some "2023-10-18T14:18:01Z"
    is_folder := false
    extension := some ".docx" }

/-- The soft-cap test at the head of each recursive call: the cap is
active and the count of already-collected whitelisted non-folder items
strictly exceeds it. -/
def capExceeded (c : EnumCtx) (items : List ItemDetails) : Bool :=
  c.maxItems > 0 &&
    ((items.filter whitelistedFile).length : Int) > c.maxItems

mutual

/-- Processing of one child item of a page inside the page loop of
get_items_in_item_recursive: its details are appended to the list; a
folder is appended a second time (the source repeats the append inside
the folder branch) and then recursed into immediately.  The recursive
call re-runs the entry checks of the source function (processed-drive
skip, processed-item skip, check_token, dry-run branch, soft cap) before
paging through the folder children. -/
def enumNode (c : EnumCtx) (path : String) (st : EnumSt) : Node → EnumSt
  | .file i n lm =>
    let d := _extract_item_details (.file i n lm) c.siteId c.driveId c.driveName path
    { st with items := st.items ++ [d] }
  | .folder i n lm pages =>
    let d := _extract_item_details (.folder i n lm pages) c.siteId c.driveId c.driveName path
    let st := { st with items := st.items ++ [d] }
    let st := { st with items := st.items ++ [d] }
    if has_been_processed c.processedDrives c.driveId then st
    else if has_been_processed c.processedItems i then st
    else
      let st := check_token c.dryRun st
      if c.dryRun then
        { st with items := st.items ++ [dryRunItem1 c.siteId c.driveId, dryRunItem2 c.siteId c.driveId] }
      else if capExceeded c st.items then st
      else enumPages c d.path st pages

/-- One page of children: one page request, then each child in order. -/
def enumPage (c : EnumCtx) (path : String) (st : EnumSt) : List Node → EnumSt
  | [] => st
  | n :: rest => enumPage c path (enumNode c path st n) rest

/-- The while-loop over the continuation-linked pages of a folder: each
iteration issues one page request and processes the returned children.
The loop does not re-test the soft cap between pages. -/
def enumPages (c : EnumCtx) (path : String) (st : EnumSt) : List (List Node) → EnumSt
  | [] => st
  | p :: rest =>
    let st := { st with pageRequests := st.pageRequests + 1 }
    enumPages c path (enumPage c path st p) rest

end

/-- Translation of SharePointHandler.get_items_in_item_recursive.  The
environment supplies the pages of children of the start item (the drive
root when startId is none).  The entry checks mirror the source: skip a
processed drive, skip a processed start item (a none start id never
matches a log line), refresh tokens, take the dry-run branch, test the
soft cap, then page through the children. -/
def get_items_in_item_recursive (c : EnumCtx) (startId : Option String)
    (rootPages : List (List Node)) (path : String) (st : EnumSt) : EnumSt :=
  if has_been_processed c.processedDrives c.driveId then st
  else if (match startId with
           | some i => has_been_processed c.processedItems i
           | none => false) then st
  else
    let st := check_token c.dryRun st
    if c.dryRun then
      { st with items := st.items ++ [dryRunItem1 c.siteId c.driveId, dryRunItem2 c.siteId c.driveId] }
    else if capExceeded c st.items then st
    else enumPages c path st rootPages

/-- Initial traversal state: fresh items list, no requests yet, token
validity as inherited from the caller. -/
def initEnumSt (tokenUserValid tokenAdminValid : Bool) : EnumSt :=
  { items := [], pageRequests := 0, authCalls := 0
    tokenUserValid := tokenUserValid, tokenAdminValid := tokenAdminValid }

/-- HTTP-style response of one content download request. -/
structure ContentResp where
  code : Nat
  body : String
deriving DecidableEq, Repr

/-- Environment of get_item_content: the response served for the n-th
content request of the run, and the text extractor (textract) which
either yields text from the staged bytes or fails. -/
structure FetchEnv where
  responses : Nat → ContentResp
  extract : String → Option String

/-- Observables of a content fetch: download requests issued, token
exchanges performed, token validity, and the error items log. -/
structure FetchSt where
  contentRequests : Nat
  authCalls : Nat
  tokenUserValid : Bool
  tokenAdminValid : Bool
  errorLog : List ErrorRec
deriving DecidableEq, Repr

/-- check_token as seen from get_item_content (same source method as in
the traversal, restated over the fetch state record). -/
def check_token_fetch (dryRun : Bool) (st : FetchSt) : FetchSt :=
  if dryRun then st
  else
    let st :=
      if st.tokenUserValid then st
      else { st with authCalls := st.authCalls + 1, tokenUserValid := true }
    if st.tokenAdminValid then st
    else { st with authCalls := st.authCalls + 1, tokenAdminValid := true }

/-- Translation of the retry loop of get_item_content, made total with a
fuel parameter: a result of none in the first component means the loop
was still running after fuel iterations.  Each iteration with
retry_count < max_retries issues one download request; a 200 response is
staged and extracted (extraction failure appends one error record and
yields no content); a 403 yields no content silently; any other status
executes the source statement retry_count = + 1, which REASSIGNS the
counter to 1 instead of incrementing it, appends an error record when
is_retry is false, and loops with no delay.  When retry_count reaches
max_retries the loop exits and the function yields no content. -/
def contentLoop (env : FetchEnv) (maxRetries : Nat) (isRetry : Bool)
    (errRec : ErrorRec) (retryCount : Nat) (st : FetchSt) :
    Nat → Option (Option String) × FetchSt
  | 0 => (none, st)
  | fuel + 1 =>
    if retryCount < maxRetries then
      let resp := env.responses st.contentRequests
      let st := { st with contentRequests := st.contentRequests + 1 }
      if resp.code = 200 then
        match env.extract resp.body with
        | some text => (some (some text), st)
        | none => (some none, { st with errorLog := st.errorLog ++ [errRec] })
      else if resp.code = 403 then
        (some none, st)
      else
        let retryCount := 1
        let st := if isRetry then st
                  else { st with errorLog := st.errorLog ++ [errRec] }
        contentLoop env maxRetries isRetry errRec retryCount st fuel
    else
      (some none, st)

/-- Translation of SharePointHandler.get_item_content: an already
processed item returns immediately (the bare return of the source, i.e.
no content) before any token check or network request; dry-run returns
the simulated content; otherwise the retry loop runs.  The fuel bounds
the number of loop iterations observed; none in the first component
means the loop had not returned after that many iterations. -/
def get_item_content (env : FetchEnv) (processedItems : List String)
    (dryRun : Bool) (maxRetries : Nat)
    (site_id drive_id item_id item_name item_path drive_name : String)
    (isRetry : Bool) (st : FetchSt) (fuel : Nat) :
    Option (Option String) × FetchSt :=
  if has_been_processed processedItems item_id then (some none, st)
  else
    let st := check_token_fetch dryRun st
    if dryRun then (some (some "This is a simulated content for dry run."), st)
    else
      contentLoop env maxRetries isRetry
        { site_id := site_id, drive_id := drive_id, item_id := item_id,
          drive_name := drive_name, path := item_path }
        0 st fuel

/-- Environment in which every content download request returns HTTP 500
and extraction never succeeds: the persistently failing fetch of the C2
scenario. -/
def env500 : FetchEnv :=
  { responses := fun _ => { code := 500, body := "" }
    extract := fun _ => none }

/-- Result of one vstore.add_documents attempt, supplied by the
environment: a list of inserted ids, or a raised exception message. -/
inductive AddResult where
  | ok (ids : List String)
  | exn (msg : String)
deriving DecidableEq, Repr

/-- Return value of ingest_chunks_with_embeddings_to_astra_db: the Python
function returns None in dry-run mode (and when the loop falls through),
returns the inserted ids on success, or lets the final exception
propagate. -/
inductive IngRes where
  | ok (ids : Option (List String))
  | raised (msg : String)
deriving DecidableEq, Repr

/-- Boolean test for a failed add_documents attempt. -/
def isExn : AddResult → Bool
  | .ok _ => false
  | .exn _ => true

/-- Message of a failed attempt (empty for a successful one). -/
def errOf : AddResult → String
  | .ok _ => ""
  | .exn e => e

/-- The for-loop of ingest_chunks_with_embeddings_to_astra_db: remaining
counts the loop iterations left (attempt + remaining = max_retries at
every call).  A successful attempt returns its inserted ids at once; a
failed attempt sleeps retry_delay seconds and continues unless it was the
last one, in which case the exception is re-raised.  Falling through the
loop (max_retries = 0) returns None like the Python function body.  The
third component logs each sleep duration. -/
def ingestGo (f : Nat → AddResult) (maxRetries retryDelay : Nat) :
    Nat → Nat → List Nat → IngRes × Nat × List Nat
  | 0, attempt, sleeps => (.ok none, attempt, sleeps)
  | remaining + 1, attempt, sleeps =>
    match f attempt with
    | .ok ids => (.ok (some ids), attempt + 1, sleeps)
    | .exn e =>
      if attempt < maxRetries - 1 then
        ingestGo f maxRetries retryDelay remaining (attempt + 1) (sleeps ++ [retryDelay])
      else
        (.raised e, attempt + 1, sleeps)

/-- Translation of AstraDBHandler.ingest_chunks_with_embeddings_to_astra_db:
dry-run logs and returns None without touching the store; otherwise the
bounded retry loop runs.  The result carries the returned value (or the
raised exception), the number of attempts made, and the sleeps taken
between consecutive attempts. -/
def ingest_chunks_with_embeddings_to_astra_db (dryRun : Bool)
    (maxRetries retryDelay : Nat) (f : Nat → AddResult) :
    IngRes × Nat × List Nat :=
  if dryRun then (.ok none, 0, [])
  else ingestGo f maxRetries retryDelay maxRetries 0 []

/-- Metadata attached to the chunks of one item by the orchestrator. -/
structure ChunkMeta where
  id : String
  name : String
  site_id : String
  path : String
  drive_name : String
deriving DecidableEq, Repr

/-- One chunk produced by the external splitter. -/
structure Chunk where
  content : String
  metadata : ChunkMeta
deriving DecidableEq, Repr

/-- Identity and name of a drive as used by the orchestrator. -/
structure DriveInfo where
  id : String
  name : String
deriving DecidableEq, Repr

/-- Terminating outcome of a live content download for one item, supplied
by the environment: a 200 response whose extraction succeeds (content),
a 403 response (denied), or a 200 response whose extraction fails
(extractFail).  The persistently failing download path of the source
never returns (see the contentLoop embedding) and is therefore not a
value of this type. -/
inductive ItemOutcome where
  | content (s : String)
  | denied
  | extractFail
deriving DecidableEq, Repr

/-- Durable commits of the run, in order: a batch flushed to the vector
store, an item id appended to the processed-items log, a drive id
appended to the processed-drives log, a deletion of the processed-items
log. -/
inductive Ev where
  | flush (batch : List Chunk)
  | markItem (id : String)
  | markDrive (id : String)
  | clearItems
deriving DecidableEq, Repr

/-- Fatal error aborting process_all_sharepoint_files_by_site_name:
the TypeError raised by len(None) after a dry-run ingest, or the
exception propagated by the ingest after exhausting its retries. -/
inductive RunErr where
  | typeError
  | ingestError (msg : String)
deriving DecidableEq, Repr

/-- Whole-run state of the orchestrator: checkpoint logs, error log, the
in-memory chunk buffer, the batches committed to the vector store, the
ordered trace of durable commits, the counters of the source function,
the number of flush calls made, and network accounting. -/
structure OrchSt where
  processedItems : List String
  processedDrives : List String
  errorLog : List ErrorRec
  buffer : List Chunk
  store : List (List Chunk)
  trace : List Ev
  total : Nat
  insertedDocs : Nat
  insertedItems : Nat
  flushCalls : Nat
  apiCalls : Nat
  tokenUserValid : Bool
  tokenAdminValid : Bool
deriving DecidableEq, Repr

/-- Initial orchestrator state: clean logs and counters; both token
expiries are initialized to datetime.min in the source, so both tokens
start invalid. -/
def initOrchSt : OrchSt :=
  { processedItems := [], processedDrives := [], errorLog := []
    buffer := [], store := [], trace := []
    total := 0, insertedDocs := 0, insertedItems := 0, flushCalls := 0
    apiCalls := 0, tokenUserValid := false, tokenAdminValid := false }

/-- Inputs and environment of one orchestrator run.  The two handlers
carry independent dry-run flags.  drivePages gives the pages of the root
children of each drive; outcomes gives the terminating download outcome
of each item id; split is the external chunker; addAttempts gives, for
the k-th flush call of the run, the result of each add_documents
attempt. -/
structure OrchCtx where
  spDryRun : Bool
  astraDryRun : Bool
  maxDrives : Int
  maxItems : Int
  bulkItemCount : Nat
  astraMaxRetries : Nat
  astraRetryDelay : Nat
  envSiteId : String
  drives : List DriveInfo
  drivePages : String → List (List Node)
  outcomes : String → ItemOutcome
  split : String → ChunkMeta → List Chunk
  addAttempts : Nat → Nat → AddResult

/-- check_token restated over the orchestrator state. -/
def check_token_orch (dryRun : Bool) (st : OrchSt) : OrchSt :=
  if dryRun then st
  else
    let st :=
      if st.tokenUserValid then st
      else { st with apiCalls := st.apiCalls + 1, tokenUserValid := true }
    if st.tokenAdminValid then st
    else { st with apiCalls := st.apiCalls + 1, tokenAdminValid := true }

/-- Site id returned by the dry-run branch of get_site_id_by_site_name. -/
def dryRunSiteId : String :=
  "esynergysol.sharepoint.com,d042ab24-9622-4433-918f-56d48d400b1e,ee651823-c72b-4205-af34-aff0daf9bf5a"

/-- Drive returned by the dry-run branch of get_drives_by_site_id. -/
def dryRunDrive : DriveInfo :=
  { id := "b!JKtC0CKWM0SRj1bUjUALHiMYZe4rxwVCrzSv8Nr5v1o70sHOvnnrS5zeBpmo9GBF"
    name := "SBX - ISO Compliance Records" }

/-- Result and side effects of the get_item_content call made by the
orchestrator for one item, on the terminating outcomes: a processed item
returns no content before any network activity; dry-run returns the
simulated string; otherwise one download request is made and the
environment outcome decides between extracted text, silent denial, and
extraction failure with one error record. -/
def orchGetContent (c : OrchCtx) (siteId : String) (drive : DriveInfo)
    (item : ItemDetails) (st : OrchSt) : Option String × OrchSt :=
  if has_been_processed st.processedItems item.id then (none, st)
  else
    let st := check_token_orch c.spDryRun st
    if c.spDryRun then (some "This is a simulated content for dry run.", st)
    else
      let st := { st with apiCalls := st.apiCalls + 1 }
      match c.outcomes item.id with
      | .content s => (some s, st)
      | .denied => (none, st)
      | .extractFail =>
        (none, { st with errorLog := st.errorLog ++
          [{ site_id := siteId, drive_id := drive.id, item_id := item.id,
             drive_name := drive.name, path := item.path }] })

/-- The metadata dict built for the chunks of one item by the
orchestrator. -/
def itemMeta (siteId : String) (item : ItemDetails) : ChunkMeta :=
  { id := item.id, name := item.name, site_id := siteId,
    path := item.path, drive_name := item.drive_name }

/-- The body of the per-item loop of
process_all_sharepoint_files_by_site_name: fetch the content; when it is
truthy, split it into chunks with the item metadata, extend the buffer,
flush to the vector store when the running processed-item count is a
multiple of bulk_item_count or this is the last item of the last drive
(a raised ingest exception aborts the run; a None ingest return makes
len raise a TypeError), then increment the counter and append the item
id to the processed-items log.  An item with no truthy content falls
through the whole block. -/
def stepItem (c : OrchCtx) (siteId : String) (drive : DriveInfo)
    (lastDrive : Bool) (n idx : Nat) (item : ItemDetails) (st : OrchSt) :
    OrchSt × Option RunErr :=
  let r := orchGetContent c siteId drive item st
  match r.1 with
  | none => (r.2, none)
  | some s =>
    if s = "" then (r.2, none)
    else
      let st := r.2
      let chunks := c.split s (itemMeta siteId item)
      let st := { st with buffer := st.buffer ++ chunks }
      let flushed : OrchSt × Option RunErr :=
        if st.total % c.bulkItemCount = 0 ∨ (idx = n - 1 ∧ lastDrive) then
          let ing := ingest_chunks_with_embeddings_to_astra_db
            c.astraDryRun c.astraMaxRetries c.astraRetryDelay
            (c.addAttempts st.flushCalls)
          let st := { st with flushCalls := st.flushCalls + 1 }
          match ing.1 with
          | .raised e => (st, some (.ingestError e))
          | .ok none => (st, some .typeError)
          | .ok (some ids) =>
            ({ st with
                insertedDocs := st.insertedDocs + ids.length
                insertedItems := st.insertedItems + c.bulkItemCount
                store := st.store ++ [st.buffer]
                trace := st.trace ++ [.flush st.buffer]
                buffer := [] }, none)
        else (st, none)
      match flushed with
      | (st, some e) => (st, some e)
      | (st, none) =>
        let st := { st with total := st.total + 1 }
        let st := { st with
          processedItems := mark_item_as_processed st.processedItems item.id
          trace := st.trace ++ [.markItem item.id] }
        (st, none)

/-- The per-item loop over items_to_process, with the enumerate index of
the source (idx runs from 0; n is the length of items_to_process). -/
def runItems (c : OrchCtx) (siteId : String) (drive : DriveInfo)
    (lastDrive : Bool) (n : Nat) : Nat → List ItemDetails → OrchSt →
    OrchSt × Option RunErr
  | _, [], st => (st, none)
  | idx, item :: rest, st =>
    match stepItem c siteId drive lastDrive n idx item st with
    | (st, some e) => (st, some e)
    | (st, none) => runItems c siteId drive lastDrive n (idx + 1) rest st

/-- Stable insertion of a drive into a name-sorted list: the drive goes
after every drive whose name is not greater, matching the stable sort of
the source. -/
def insertByName (d : DriveInfo) : List DriveInfo → List DriveInfo
  | [] => [d]
  | x :: xs => if d.name < x.name then d :: x :: xs else x :: insertByName d xs

/-- sorted(drives, key=name): stable insertion sort by drive name. -/
def sortByName (ds : List DriveInfo) : List DriveInfo :=
  ds.foldl (fun acc d => insertByName d acc) []

/-- The per-drive loop of process_all_sharepoint_files_by_site_name:
a drive outside the static drive whitelist is skipped entirely
(continue); otherwise its hierarchy is enumerated with the current
checkpoint logs, the result is filtered to whitelisted non-folder items
and truncated to max_items when positive, the item loop runs, and on its
normal completion the drive id is appended to the processed-drives log
and the processed-items log is deleted.  total is the length of
drives_to_process; idx is the enumerate index over it. -/
def runDrives (c : OrchCtx) (siteId : String) (total : Nat) :
    Nat → List DriveInfo → OrchSt → OrchSt × Option RunErr
  | _, [], st => (st, none)
  | idx, drive :: rest, st =>
    if !drive_white_list.contains drive.name then
      runDrives c siteId total (idx + 1) rest st
    else
      let est := get_items_in_item_recursive
        { siteId := siteId, driveId := drive.id, driveName := drive.name,
          processedItems := st.processedItems,
          processedDrives := st.processedDrives,
          maxItems := c.maxItems, dryRun := c.spDryRun }
        none (c.drivePages drive.id) "/"
        (initEnumSt st.tokenUserValid st.tokenAdminValid)
      let st := { st with
        apiCalls := st.apiCalls + est.pageRequests + est.authCalls
        tokenUserValid := est.tokenUserValid
        tokenAdminValid := est.tokenAdminValid }
      let itp := est.items.filter whitelistedFile
      let itp := if c.maxItems > 0 then itp.take c.maxItems.toNat else itp
      match runItems c siteId drive (idx == total - 1) itp.length 0 itp st with
      | (st, some e) => (st, some e)
      | (st, none) =>
        let st := { st with
          processedDrives := mark_item_as_processed st.processedDrives drive.id
          trace := st.trace ++ [Ev.markDrive drive.id] }
        let st := { st with
          processedItems := clear_processed_items_record
          trace := st.trace ++ [Ev.clearItems] }
        runDrives c siteId total (idx + 1) rest st

/-- Translation of process_all_sharepoint_files_by_site_name: the user
token is initialized, the site id and the drive list are fetched (canned
values in dry-run), the drive list is truncated to max_drives when
positive and then sorted by name, and the per-drive loop runs.  The
result is the final state together with the fatal error that aborted the
run, if any. -/
def process_all_sharepoint_files_by_site_name (c : OrchCtx) :
    OrchSt × Option RunErr :=
  let st := initOrchSt
  let st := if c.spDryRun then st
            else { st with apiCalls := st.apiCalls + 1, tokenUserValid := true }
  let st := check_token_orch c.spDryRun st
  let siteId := if c.spDryRun then dryRunSiteId else c.envSiteId
  let st := if c.spDryRun then st else { st with apiCalls := st.apiCalls + 1 }
  let st := check_token_orch c.spDryRun st
  let drives := if c.spDryRun then [dryRunDrive] else c.drives
  let st := if c.spDryRun then st else { st with apiCalls := st.apiCalls + 1 }
  let drivesToProcess :=
    sortByName (if c.maxDrives > 0 then drives.take c.maxDrives.toNat else drives)
  runDrives c siteId drivesToProcess.length 0 drivesToProcess st

/-- A splitter environment producing one chunk per document. -/
def oneChunkSplit (s : String) (m : ChunkMeta) : List Chunk := [⟨s, m⟩]

/-- Concrete run A: one whitelisted drive d1 holding one page of three
whitelisted files; i1 and i2 download fine, i3 is denied; bulk cadence
10; every vector-store attempt succeeds. -/
def ctxA : OrchCtx :=
  { spDryRun := false, astraDryRun := false
    maxDrives := -1, maxItems := -1, bulkItemCount := 10
    astraMaxRetries := 3, astraRetryDelay := 10
    envSiteId := "site1"
    drives := [{ id := "d1", name := "SBX - Bid Respository" }]
    drivePages := fun _ =>
      [[Node.file "i1" "a.txt" none, Node.file "i2" "b.txt" none,
        Node.file "i3" "c.txt" none]]
    outcomes := fun i =>
      if i = "i1" then .content "AAA"
      else if i = "i2" then .content "BBB"
      else .denied
    split := oneChunkSplit
    addAttempts := fun _ _ => .ok ["x1"] }

/-- Metadata the orchestrator attaches to the chunks of item i1 in run A. -/
def metaA1 : ChunkMeta :=
  { id := "i1", name := "a.txt", site_id := "site1", path := "/a.txt",
    drive_name := "SBX - Bid Respository" }

/-- The single chunk produced for item i1 in run A. -/
def chunkA1 : Chunk := ⟨"AAA", metaA1⟩

/-- Metadata the orchestrator attaches to the chunks of item i2 in run A. -/
def metaA2 : ChunkMeta :=
  { id := "i2", name := "b.txt", site_id := "site1", path := "/b.txt",
    drive_name := "SBX - Bid Respository" }

/-- The single chunk produced for item i2 in run A. -/
def chunkA2 : Chunk := ⟨"BBB", metaA2⟩

/-- Boolean test that every node of every page is a plain file. -/
def pagesAllFiles (pages : List (List Node)) : Bool :=
  pages.all (fun p => p.all (fun n => !nodeIsFolder n))

/-- A concrete fetch state used by witnesses. -/
def fetchSt0 : FetchSt :=
  { contentRequests := 0, authCalls := 0, tokenUserValid := true,
    tokenAdminValid := true, errorLog := [] }

/-- Traversal context of the concrete C9 and C6 scenarios: nothing
marked, no cap, live mode. -/
def ecScan : EnumCtx :=
  { siteId := "s", driveId := "d", driveName := "D",
    processedItems := [], processedDrives := [], maxItems := -1,
    dryRun := false }

/-- Root pages with the file doc.docx inside the root-level folder F. -/
def pagesNested : List (List Node) :=
  [[Node.folder "F1" "F" none [[Node.file "D1" "doc.docx" none]]]]

/-- Root pages with folder F and the file doc.docx as siblings at the
drive root. -/
def pagesSibling : List (List Node) :=
  [[Node.folder "F1" "F" none [], Node.file "D1" "doc.docx" none]]

/-- The details record built for folder F at the drive root of the C6
scenario. -/
def folderFDetails : ItemDetails :=
  { id := "F1", name := "F", site_id := "s", drive_id := "d",
    drive_name := "D", path := "/F", lastModifiedDateTime := none,
    is_folder := true, extension := none }

/-- The details record built for doc.docx inside folder F in the C6
scenario. -/
def docDetails : ItemDetails :=
  { id := "D1", name := "doc.docx", site_id := "s", drive_id := "d",
    drive_name := "D", path := "/F/doc.docx", lastModifiedDateTime := none,
    is_folder := false, extension := some ".docx" }

/-- Traversal context of the concrete C7 scenario: soft cap of 2. -/
def ec7 : EnumCtx :=
  { siteId := "s", driveId := "d", driveName := "D",
    processedItems := [], processedDrives := [], maxItems := 2,
    dryRun := false }

/-- Three continuation-linked pages of the drive root: three whitelisted
files spread over the first two pages, and a third page holding a
non-whitelisted file. -/
def pages7 : List (List Node) :=
  [[Node.file "a1" "a.txt" none, Node.file "a2" "b.txt" none],
   [Node.file "a3" "c.txt" none],
   [Node.file "a4" "e.exe" none]]

/-- Concrete run B: same drive and items as run A but with flush cadence
1 and a vector store that accepts the first flush call and throws on
every attempt of the second. -/
def ctxB : OrchCtx :=
  { spDryRun := false, astraDryRun := false
    maxDrives := -1, maxItems := -1, bulkItemCount := 1
    astraMaxRetries := 3, astraRetryDelay := 10
    envSiteId := "site1"
    drives := [{ id := "d1", name := "SBX - Bid Respository" }]
    drivePages := fun _ =>
      [[Node.file "i1" "a.txt" none, Node.file "i2" "b.txt" none]]
    outcomes := fun i =>
      if i = "i1" then .content "AAA" else .content "BBB"
    split := oneChunkSplit
    addAttempts := fun call _ => if call = 0 then .ok ["y1"] else .exn "boom" }

/-- An environment in which every add_documents attempt throws. -/
def allExnAttempts : Nat → AddResult := fun _ => .exn "down"

/-- The drive of the concrete runs A and B. -/
def driveD1 : DriveInfo := { id := "d1", name := "SBX - Bid Respository" }

/-- The details record of the file b.txt (item i2) in run A. -/
def itemBtxt : ItemDetails :=
  { id := "i2", name := "b.txt", site_id := "site1", drive_id := "d1",
    drive_name := "SBX - Bid Respository", path := "/b.txt",
    lastModifiedDateTime := none, is_folder := false,
    extension := some ".txt" }

/-- A state one committed item into run A: total 1, logs clean. -/
def stW : OrchSt := { initOrchSt with total := 1 }

/-- The state after the content fetch of i2 from stW: two token
exchanges and one download, both tokens now valid. -/
def stW1 : OrchSt :=
  { initOrchSt with
    total := 1
    apiCalls := 3
    tokenUserValid := true
    tokenAdminValid := true }

/-- The details record of the file a.txt (item i1) in run A. -/
def itemAtxt : ItemDetails :=
  { id := "i1", name := "a.txt", site_id := "site1", drive_id := "d1",
    drive_name := "SBX - Bid Respository", path := "/a.txt",
    lastModifiedDateTime := none, is_folder := false,
    extension := some ".txt" }

/-- The state after the content fetch of i1 from the initial state. -/
def stV1 : OrchSt :=
  { initOrchSt with
    apiCalls := 3
    tokenUserValid := true
    tokenAdminValid := true }

/-- Concrete run D: a live crawl of one whitelisted drive with a single
contentful item, ingesting through a dry-run AstraDB handler. -/
def ctxD : OrchCtx :=
  { spDryRun := false, astraDryRun := true
    maxDrives := -1, maxItems := -1, bulkItemCount := 10
    astraMaxRetries := 3, astraRetryDelay := 10
    envSiteId := "site1"
    drives := [{ id := "d1", name := "SBX - Bid Respository" }]
    drivePages := fun _ => [[Node.file "i1" "a.txt" none]]
    outcomes := fun _ => .content "hello"
    split := oneChunkSplit
    addAttempts := fun _ _ => .ok [] }

/-- A node that is not a folder only appends its details. -/
theorem enumNode_file_pageRequests (c : EnumCtx) (path : String)
    (st : EnumSt) (n : Node) (h : nodeIsFolder n = false) :
    (enumNode c path st n).pageRequests = st.pageRequests := by
  cases n with
  | file i nm lm => simp [enumNode]
  | folder i nm lm pages => simp [nodeIsFolder] at h

/-- A page of plain files issues no further page requests. -/
theorem enumPage_files_pageRequests (c : EnumCtx) (path : String)
    (page : List Node) (h : page.all (fun n => !nodeIsFolder n) = true) :
    ∀ st : EnumSt, (enumPage c path st page).pageRequests = st.pageRequests := by
  induction page with
  | nil => intro st; simp [enumPage]
  | cons n rest ih =>
    intro st
    simp only [List.all_cons, Bool.and_eq_true, Bool.not_eq_true'] at h
    simp only [enumPage]
    rw [ih (by simpa using h.2), enumNode_file_pageRequests c path st n h.1]

/-- Paging over folder children consisting only of files issues exactly
one request per page, whatever the soft-cap configuration and the
already-accumulated list. -/
theorem enumPages_files_pageRequests (c : EnumCtx) (path : String)
    (pages : List (List Node)) (h : pagesAllFiles pages = true) :
    ∀ st : EnumSt,
      (enumPages c path st pages).pageRequests = st.pageRequests + pages.length := by
  induction pages with
  | nil => intro st; simp [enumPages]
  | cons p rest ih =>
    intro st
    simp only [pagesAllFiles, List.all_cons, Bool.and_eq_true] at h
    simp only [enumPages]
    rw [ih (by simp [pagesAllFiles, h.2]), enumPage_files_pageRequests c path p h.1]
    simp [List.length_cons]
    omega

/-- C4.  Subtree pruning: for every drive ID present in the
processed-drives log, and likewise for every start-folder ID present in
the processed-items log, get_items_in_item_recursive returns the
accumulated items list unchanged (indeed the whole traversal state, so
zero page requests and zero token exchanges are issued for that drive or
folder). -/
theorem C4_subtree_pruning (c : EnumCtx) (startId : Option String)
    (rootPages : List (List Node)) (path : String) (st : EnumSt) :
    (has_been_processed c.processedDrives c.driveId = true →
      get_items_in_item_recursive c startId rootPages path st = st) ∧
    (∀ i, startId = some i → has_been_processed c.processedItems i = true →
      get_items_in_item_recursive c startId rootPages path st = st) := by
  constructor
  · intro h
    simp [get_items_in_item_recursive, h]
  · intro i hi h
    subst hi
    by_cases hd : has_been_processed c.processedDrives c.driveId = true
    · simp [get_items_in_item_recursive, hd]
    · simp [get_items_in_item_recursive, hd, h]

/-- Concrete instance of C4: a marked drive and a marked start folder
both leave the traversal state untouched. -/
theorem C4_witness :
    get_items_in_item_recursive
      { siteId := "s", driveId := "d", driveName := "D",
        processedItems := [], processedDrives := ["d"], maxItems := -1,
        dryRun := false }
      (some "F") [[Node.file "x" "x.txt" none]] "/" (initEnumSt true true)
      = initEnumSt true true ∧
    get_items_in_item_recursive
      { siteId := "s", driveId := "d", driveName := "D",
        processedItems := ["F"], processedDrives := [], maxItems := -1,
        dryRun := false }
      (some "F") [[Node.file "x" "x.txt" none]] "/" (initEnumSt true true)
      = initEnumSt true true := by
  constructor
  · exact (C4_subtree_pruning _ _ _ _ _).1 (by decide)
  · exact (C4_subtree_pruning _ _ _ _ _).2 "F" rfl (by decide)

/-- C5.  Idempotent resume: for every item ID present in the
processed-items log, get_item_content returns immediately (the bare
return of the source, the no-content value standing for Skipped) with
the state untouched: no token exchange, no content request, no error
record, whatever the environment, mode, retry flag or fuel. -/
theorem C5_idempotent_resume (env : FetchEnv) (processedItems : List String)
    (dryRun : Bool) (maxRetries : Nat)
    (site_id drive_id item_id item_name item_path drive_name : String)
    (isRetry : Bool) (st : FetchSt) (fuel : Nat)
    (h : has_been_processed processedItems item_id = true) :
    get_item_content env processedItems dryRun maxRetries
      site_id drive_id item_id item_name item_path drive_name
      isRetry st fuel = (some none, st) := by
  simp [get_item_content, h]

/-- Concrete instance of C5: item X is marked processed, so the fetch is
skipped without touching the state. -/
theorem C5_witness :
    has_been_processed ["X"] "X" = true ∧
    get_item_content env500 ["X"] false 3 "s" "d" "X" "x.txt" "/x.txt" "D"
      false fetchSt0 7 = (some none, fetchSt0) :=
  ⟨by decide,
   C5_idempotent_resume env500 ["X"] false 3 "s" "d" "X" "x.txt" "/x.txt" "D"
     false fetchSt0 7 (by decide)⟩

/-- C9.  Path derivation: every details record derives its path from the
parent path and the item name, rooted at "/"; concretely, doc.docx inside
the root-level folder F gets path /F/doc.docx, while the same file as a
sibling of F at the drive root gets path /doc.docx. -/
theorem C9_path_derivation :
    (∀ (n : Node) (site_id drive_id drive_name path : String),
      (_extract_item_details n site_id drive_id drive_name path).path =
        if path = "/" then "/" ++ nodeName n else path ++ "/" ++ nodeName n) ∧
    (get_items_in_item_recursive ecScan none pagesNested "/"
        (initEnumSt true true)).items.map ItemDetails.path =
      ["/F", "/F", "/F/doc.docx"] ∧
    (get_items_in_item_recursive ecScan none pagesSibling "/"
        (initEnumSt true true)).items.map ItemDetails.path =
      ["/F", "/F", "/doc.docx"] := by
  refine ⟨fun n site_id drive_id drive_name path => ?_, by decide, by decide⟩
  simp [_extract_item_details]

/-- C6.  The source appends the details record of a folder child twice
(the append statement is repeated inside the folder branch before the
recursion), so a page containing folder F with one child yields the
folder descriptor twice in the returned sequence, contradicting the
append-once property. -/
theorem C6_append_twice_bug :
    (get_items_in_item_recursive ecScan none pagesNested "/"
        (initEnumSt true true)).items =
      [folderFDetails, folderFDetails, docDetails] ∧
    ((get_items_in_item_recursive ecScan none pagesNested "/"
        (initEnumSt true true)).items.count folderFDetails = 2) := by
  constructor <;> decide

/-- C7 counterexample.  With maxItems = 2 and three whitelisted items on
the first two pages, the whitelisted count already exceeds the cap after
page two, yet the traversal still requests the third page and returns its
item: the soft cap does not stop the page loop of the folder being
enumerated (it is only tested at entry to a recursive call). -/
theorem C7_counterexample :
    ec7.maxItems = 2 ∧
    ((get_items_in_item_recursive ec7 none (pages7.take 2) "/"
        (initEnumSt true true)).items.filter whitelistedFile).length = 3 ∧
    (get_items_in_item_recursive ec7 none pages7 "/"
        (initEnumSt true true)).pageRequests = 3 ∧
    (get_items_in_item_recursive ec7 none pages7 "/"
        (initEnumSt true true)).items.length = 4 := by
  refine ⟨rfl, by decide, by decide, by decide⟩

/-- C7 as amended.  The soft cap is evaluated once at entry to each
recursive call: a call entered with the whitelisted non-folder count of
the accumulated list already exceeding the cap issues no page request
and collects nothing (so recursion into further subtrees is pruned); but
within the folder currently being enumerated, the page loop fetches every
remaining page of the continuation chain regardless of the cap. -/
theorem C7_soft_cap_amended :
    (∀ (c : EnumCtx) (startId : Option String)
       (rootPages : List (List Node)) (path : String) (st : EnumSt),
      c.dryRun = false →
      capExceeded c st.items = true →
      (get_items_in_item_recursive c startId rootPages path st).items = st.items ∧
      (get_items_in_item_recursive c startId rootPages path st).pageRequests =
        st.pageRequests) ∧
    (∀ (c : EnumCtx) (path : String) (pages : List (List Node)) (st : EnumSt),
      pagesAllFiles pages = true →
      (enumPages c path st pages).pageRequests = st.pageRequests + pages.length) := by
  constructor
  · intro c startId rootPages path st hdry hcap
    have hct : (check_token c.dryRun st).items = st.items ∧
        (check_token c.dryRun st).pageRequests = st.pageRequests := by
      by_cases h2 : st.tokenUserValid = true <;>
        by_cases h3 : st.tokenAdminValid = true <;>
          simp [check_token, hdry, h2, h3]
    have hcap2 : capExceeded c (check_token c.dryRun st).items = true := by
      rw [hct.1]; exact hcap
    rw [hdry] at hct hcap2
    by_cases hd : has_been_processed c.processedDrives c.driveId = true
    · simp [get_items_in_item_recursive, hd]
    · by_cases hs : (match startId with
          | some i => has_been_processed c.processedItems i
          | none => false) = true
      · simp [get_items_in_item_recursive, hd, hs]
      · constructor
        · simpa [get_items_in_item_recursive, hd, hs, hdry, hcap2] using hct.1
        · simpa [get_items_in_item_recursive, hd, hs, hdry, hcap2] using hct.2
  · intro c path pages st h
    exact enumPages_files_pageRequests c path pages h st

/-- Every download request in the all-500 environment returns 500. -/
theorem env500_responses (n : Nat) :
    env500.responses n = { code := 500, body := "" } := rfl

/-- In the all-500 environment with is_retry false, every loop iteration
reassigns retry_count to 1 (the source statement retry_count = + 1), so
from any retry_count of at most 1 the loop runs for the whole fuel:
one download request and one appended error record per iteration, and no
result. -/
theorem contentLoop_env500_diverges (errRec : ErrorRec) :
    ∀ (fuel rc : Nat) (st : FetchSt), rc ≤ 1 →
      contentLoop env500 3 false errRec rc st fuel =
        (none, { st with
          contentRequests := st.contentRequests + fuel
          errorLog := st.errorLog ++ List.replicate fuel errRec }) := by
  intro fuel
  induction fuel with
  | zero =>
    intro rc st h
    simp [contentLoop]
  | succ fuel ih =>
    intro rc st h
    have hrc : rc < 3 := by omega
    simp only [contentLoop, env500_responses]
    rw [if_pos hrc]
    norm_num
    rw [ih 1 _ (by omega)]
    simp [List.replicate_succ]
    omega

/-- C2.  The bounded-fetch-retry claim fails against the source: in the
statement retry_count = + 1 the counter is reassigned to 1 instead of
being incremented, so for an item whose download persistently returns a
non-success, non-403 status (500 here) with is_retry false and
max_retries 3, the while loop never exits: after any number fuel of
iterations it has still produced no result, has issued fuel download
requests (not at most 3), has appended fuel error records (not exactly
one), and has slept between none of them. -/
theorem C2_unbounded_retry_bug (fuel : Nat)
    (site_id drive_id item_id item_name item_path drive_name : String)
    (st : FetchSt) :
    get_item_content env500 [] false 3 site_id drive_id item_id item_name
      item_path drive_name false st fuel =
      (none,
        { check_token_fetch false st with
          contentRequests := (check_token_fetch false st).contentRequests + fuel
          errorLog := (check_token_fetch false st).errorLog ++
            List.replicate fuel
              { site_id := site_id, drive_id := drive_id, item_id := item_id,
                drive_name := drive_name, path := item_path } }) := by
  have hmark : has_been_processed [] item_id = false := rfl
  simp only [get_item_content, hmark, Bool.false_eq_true, if_false]
  exact contentLoop_env500_diverges _ fuel 0 _ (by omega)

/-- The number of attempts the ingest loop makes never exceeds the sum of
the current attempt index and the remaining loop iterations. -/
theorem ingestGo_attempts_le (f : Nat → AddResult) (mr rd : Nat) :
    ∀ (remaining attempt : Nat) (sleeps : List Nat),
      (ingestGo f mr rd remaining attempt sleeps).2.1 ≤ attempt + remaining := by
  intro remaining
  induction remaining with
  | zero => intro attempt sleeps; simp [ingestGo]
  | succ r ih =>
    intro attempt sleeps
    simp only [ingestGo]
    cases hf : f attempt with
    | ok ids => simp
    | exn e =>
      simp only []
      by_cases hlt : attempt < mr - 1
      · rw [if_pos hlt]
        have := ih (attempt + 1) (sleeps ++ [rd])
        omega
      · rw [if_neg hlt]
        simp

/-- When every attempt up to max_retries throws, the loop makes exactly
the remaining attempts, sleeps the fixed delay between consecutive ones,
and re-raises the exception of the final attempt. -/
theorem ingestGo_allfail (f : Nat → AddResult) (mr rd : Nat)
    (hall : ∀ j, j < mr → isExn (f j) = true) :
    ∀ (remaining attempt : Nat) (sleeps : List Nat),
      attempt + remaining = mr → 0 < remaining →
      ingestGo f mr rd remaining attempt sleeps =
        (.raised (errOf (f (mr - 1))), mr,
          sleeps ++ List.replicate (remaining - 1) rd) := by
  intro remaining
  induction remaining with
  | zero =>
    intro attempt sleeps hsum h0
    exact absurd h0 (Nat.lt_irrefl 0)
  | succ r ih =>
    intro attempt sleeps hsum h0
    have hat : attempt < mr := by omega
    have hx := hall attempt hat
    simp only [ingestGo]
    cases hf : f attempt with
    | ok ids => rw [hf] at hx; simp [isExn] at hx
    | exn e =>
      simp only []
      by_cases hr : r = 0
      · subst hr
        have hnlt : ¬ attempt < mr - 1 := by omega
        rw [if_neg hnlt]
        have hm : mr - 1 = attempt := by omega
        rw [hm, hf]
        simp [errOf]
        omega
      · have hlt : attempt < mr - 1 := by omega
        rw [if_pos hlt]
        rw [ih (attempt + 1) (sleeps ++ [rd]) (by omega) (by omega)]
        obtain ⟨r2, rfl⟩ : ∃ r2, r = r2 + 1 := ⟨r - 1, by omega⟩
        simp [List.replicate_succ, List.append_assoc]

/-- When the attempt at index attempt + k is the first to succeed, the
loop returns its inserted ids after k + 1 further attempts with k sleeps
of the fixed delay. -/
theorem ingestGo_firstsucc (f : Nat → AddResult) (mr rd : Nat)
    (ids : List String) :
    ∀ (k remaining attempt : Nat) (sleeps : List Nat),
      attempt + remaining = mr → attempt + k < mr →
      (∀ j, j < k → isExn (f (attempt + j)) = true) →
      f (attempt + k) = .ok ids →
      ingestGo f mr rd remaining attempt sleeps =
        (.ok (some ids), attempt + k + 1, sleeps ++ List.replicate k rd) := by
  intro k
  induction k with
  | zero =>
    intro remaining attempt sleeps hsum hlt hexn hok
    obtain ⟨r2, rfl⟩ : ∃ r2, remaining = r2 + 1 := ⟨remaining - 1, by omega⟩
    rw [show attempt + 0 = attempt from rfl] at hok
    simp [ingestGo, hok]
  | succ k ih =>
    intro remaining attempt sleeps hsum hlt hexn hok
    obtain ⟨r2, rfl⟩ : ∃ r2, remaining = r2 + 1 := ⟨remaining - 1, by omega⟩
    have hx := hexn 0 (by omega)
    rw [show attempt + 0 = attempt from rfl] at hx
    simp only [ingestGo]
    cases hf : f attempt with
    | ok i => rw [hf] at hx; simp [isExn] at hx
    | exn e =>
      simp only []
      have hlt2 : attempt < mr - 1 := by omega
      rw [if_pos hlt2]
      have hexn2 : ∀ j, j < k → isExn (f (attempt + 1 + j)) = true := by
        intro j hj
        have := hexn (j + 1) (by omega)
        rwa [show attempt + (j + 1) = attempt + 1 + j by omega] at this
      have hok2 : f (attempt + 1 + k) = .ok ids := by
        rwa [show attempt + 1 + k = attempt + (k + 1) by omega]
      rw [ih r2 (attempt + 1) (sleeps ++ [rd]) (by omega) (by omega) hexn2 hok2]
      simp [List.replicate_succ, List.append_assoc]
      omega

/-- C8.  Bounded ingest retry: in live mode the destination-store write
is attempted at most max_retries times; the first successful attempt
returns its inserted ids at once, with the fixed delay slept between
each pair of consecutive attempts made so far; when every attempt
throws, the loop makes exactly max_retries attempts, sleeps the fixed
delay between consecutive ones, and re-raises the final exception; and
in the concrete run B, whose second flush call exhausts its retries, the
raised exception aborts the run while the batch flushed by the first
call remains committed in the store. -/
theorem C8_bounded_ingest_retry :
    (∀ (f : Nat → AddResult) (mr rd : Nat),
      (ingest_chunks_with_embeddings_to_astra_db false mr rd f).2.1 ≤ mr) ∧
    (∀ (f : Nat → AddResult) (mr rd k : Nat) (ids : List String),
      k < mr → (∀ j, j < k → isExn (f j) = true) → f k = .ok ids →
      ingest_chunks_with_embeddings_to_astra_db false mr rd f =
        (.ok (some ids), k + 1, List.replicate k rd)) ∧
    (∀ (f : Nat → AddResult) (mr rd : Nat),
      0 < mr → (∀ j, j < mr → isExn (f j) = true) →
      ingest_chunks_with_embeddings_to_astra_db false mr rd f =
        (.raised (errOf (f (mr - 1))), mr, List.replicate (mr - 1) rd)) ∧
    (process_all_sharepoint_files_by_site_name ctxB).2 =
        some (RunErr.ingestError "boom") ∧
    (process_all_sharepoint_files_by_site_name ctxB).1.store = [[chunkA1]] := by
  refine ⟨?_, ?_, ?_, by decide, by decide⟩
  · intro f mr rd
    simpa [ingest_chunks_with_embeddings_to_astra_db] using
      ingestGo_attempts_le f mr rd mr 0 []
  · intro f mr rd k ids hk hexn hok
    have h := ingestGo_firstsucc f mr rd ids k mr 0 [] (by omega) (by omega)
      (by simpa using hexn) (by simpa using hok)
    simpa [ingest_chunks_with_embeddings_to_astra_db] using h
  · intro f mr rd h0 hall
    have h := ingestGo_allfail f mr rd hall mr 0 [] (by omega) h0
    simpa [ingest_chunks_with_embeddings_to_astra_db] using h

/-- Concrete instance of C8: with max_retries 3 and delay 10 against a
store that always throws, the ingest makes exactly 3 attempts, sleeps 10
twice, and re-raises. -/
theorem C8_witness :
    (0 : Nat) < 3 ∧
    ingest_chunks_with_embeddings_to_astra_db false 3 10 allExnAttempts =
      (.raised "down", 3, [10, 10]) := by
  refine ⟨by decide, ?_⟩
  have h := C8_bounded_ingest_retry.2.2.1 allExnAttempts 3 10 (by decide)
    (fun j hj => rfl)
  simpa [allExnAttempts, errOf, List.replicate] using h

/-- Concrete instance of the amended C7: a call entered over the cap
leaves the list and the request count unchanged, and a flat two-page
chain is fetched entirely. -/
theorem C7_witness :
    (get_items_in_item_recursive ec7 none pages7 "/"
        { items := [docDetails, docDetails, docDetails], pageRequests := 5,
          authCalls := 0, tokenUserValid := true, tokenAdminValid := true }).items
      = [docDetails, docDetails, docDetails] ∧
    (enumPages ec7 "/" (initEnumSt true true) (pages7.take 2)).pageRequests
      = 0 + 2 := by
  constructor
  · exact ((C7_soft_cap_amended.1 ec7 none pages7 "/" _ rfl (by decide)).1)
  · exact C7_soft_cap_amended.2 ec7 "/" (pages7.take 2) (initEnumSt true true)
      (by decide)

/-- check_token touches only the api counter and the token flags. -/
theorem check_token_orch_fields (d : Bool) (st : OrchSt) :
    (check_token_orch d st).processedItems = st.processedItems ∧
    (check_token_orch d st).store = st.store ∧
    (check_token_orch d st).buffer = st.buffer ∧
    (check_token_orch d st).trace = st.trace := by
  by_cases h1 : d = true <;> by_cases h2 : st.tokenUserValid = true <;>
    by_cases h3 : st.tokenAdminValid = true <;>
      simp [check_token_orch, h1, h2, h3]

/-- The content fetch never commits anything: the processed-items log,
the store, the buffer and the trace of durable commits are unchanged by
orchGetContent (it only counts network calls, refreshes tokens and may
append an error record). -/
theorem orchGetContent_fields (c : OrchCtx) (siteId : String)
    (drive : DriveInfo) (item : ItemDetails) (st : OrchSt) :
    (orchGetContent c siteId drive item st).2.processedItems = st.processedItems ∧
    (orchGetContent c siteId drive item st).2.store = st.store ∧
    (orchGetContent c siteId drive item st).2.buffer = st.buffer ∧
    (orchGetContent c siteId drive item st).2.trace = st.trace := by
  by_cases h1 : has_been_processed st.processedItems item.id = true
  · simp [orchGetContent, h1]
  · by_cases h2 : c.spDryRun = true
    · have hct := check_token_orch_fields c.spDryRun st
      rw [h2] at hct
      simp [orchGetContent, h1, h2, hct.1, hct.2.1, hct.2.2.1, hct.2.2.2]
    · have h2f : c.spDryRun = false := by simpa using h2
      have hct := check_token_orch_fields c.spDryRun st
      rw [h2f] at hct
      cases ho : c.outcomes item.id <;>
        simp [orchGetContent, h1, h2f, ho, hct.1, hct.2.1, hct.2.2.1, hct.2.2.2]

/-- C1 counterexample.  In run A (three whitelisted items, cadence 10,
i3 denied) the run completes without error, the id of i2 is committed to
the processed-items log (the markItem event in the trace), yet the chunk
of i2 is in no batch ever flushed to the store and still sits in the
in-memory buffer; and i3, which produced no content, is never marked
processed.  Both halves of the claimed ordering invariant fail. -/
theorem C1_counterexample :
    (process_all_sharepoint_files_by_site_name ctxA).2 = none ∧
    Ev.markItem "i2" ∈ (process_all_sharepoint_files_by_site_name ctxA).1.trace ∧
    (∀ b ∈ (process_all_sharepoint_files_by_site_name ctxA).1.store,
      chunkA2 ∉ b) ∧
    chunkA2 ∈ (process_all_sharepoint_files_by_site_name ctxA).1.buffer ∧
    ctxA.outcomes "i3" = ItemOutcome.denied ∧
    Ev.markItem "i3" ∉ (process_all_sharepoint_files_by_site_name ctxA).1.trace
    := by
  exact ⟨by decide, by decide, by decide, by decide, by decide, by decide⟩

/-- C1 as amended.  The orchestrator marks an item processed iff the
fetch returned truthy content: the fetch itself commits nothing; an item
with no (or empty) content is skipped entirely, neither flushed nor
marked, so it is retried on the next run; and an item with content whose
iteration does not hit the flush condition is marked immediately after
accumulation, while its chunks are still in the unflushed buffer. -/
theorem C1_ordering_amended (c : OrchCtx) (siteId : String)
    (drive : DriveInfo) (lastDrive : Bool) (n idx : Nat)
    (item : ItemDetails) (st st1 : OrchSt) :
    ((orchGetContent c siteId drive item st).2.processedItems = st.processedItems ∧
     (orchGetContent c siteId drive item st).2.store = st.store ∧
     (orchGetContent c siteId drive item st).2.buffer = st.buffer ∧
     (orchGetContent c siteId drive item st).2.trace = st.trace) ∧
    (orchGetContent c siteId drive item st = (none, st1) →
      stepItem c siteId drive lastDrive n idx item st = (st1, none)) ∧
    (orchGetContent c siteId drive item st = (some "", st1) →
      stepItem c siteId drive lastDrive n idx item st = (st1, none)) ∧
    (∀ s, orchGetContent c siteId drive item st = (some s, st1) → s ≠ "" →
      ¬(st1.total % c.bulkItemCount = 0 ∨ (idx = n - 1 ∧ lastDrive = true)) →
      stepItem c siteId drive lastDrive n idx item st =
        ({ st1 with
            buffer := st1.buffer ++ c.split s (itemMeta siteId item)
            total := st1.total + 1
            processedItems := mark_item_as_processed st1.processedItems item.id
            trace := st1.trace ++ [Ev.markItem item.id] }, none)) := by
  refine ⟨orchGetContent_fields c siteId drive item st, ?_, ?_, ?_⟩
  · intro h
    simp [stepItem, h]
  · intro h
    simp [stepItem, h]
  · intro s h hs hcond
    simp [stepItem, h, hs, hcond]

/-- Concrete instance of the amended C1: with cadence 10 and one item
already counted, processing i2 marks it processed immediately while its
chunk stays in the unflushed buffer. -/
theorem C1_witness :
    stepItem ctxA "site1" driveD1 false 3 0 itemBtxt stW =
      ({ stW1 with
          buffer := stW1.buffer ++ ctxA.split "BBB" (itemMeta "site1" itemBtxt)
          total := stW1.total + 1
          processedItems := mark_item_as_processed stW1.processedItems "i2"
          trace := stW1.trace ++ [Ev.markItem "i2"] }, none) := by
  have h := (C1_ordering_amended ctxA "site1" driveD1 false 3 0 itemBtxt
    stW stW1).2.2.2 "BBB" (by decide) (by decide) (by decide)
  simpa using h

/-- C3 counterexample.  Run A completes normally (no fatal error), but
the chunk of i2 is left in the buffer: only one flush ever happened (the
one carrying the chunk of i1), because the final item of the final drive
(the denied i3) produced no content, so the forced completion flush
never ran.  Accumulated content is left unflushed at normal
completion. -/
theorem C3_counterexample :
    (process_all_sharepoint_files_by_site_name ctxA).2 = none ∧
    (process_all_sharepoint_files_by_site_name ctxA).1.buffer = [chunkA2] ∧
    (process_all_sharepoint_files_by_site_name ctxA).1.store = [[chunkA1]] ∧
    ((process_all_sharepoint_files_by_site_name ctxA).1.trace.filter
      (fun e => match e with | Ev.flush _ => true | _ => false))
      = [Ev.flush [chunkA1]] := by
  exact ⟨by decide, by decide, by decide, by decide⟩

/-- C3 as amended.  The flush condition is evaluated only inside an
iteration whose item yielded truthy content: such an iteration flushes
exactly when the pre-increment processed-item count is a multiple of
bulk_item_count or the item is the last of the last enumerated drive
(buffer plus the new chunks committed as one batch, buffer emptied);
otherwise the chunks only accumulate; and an iteration whose item
yielded no content leaves buffer and store untouched, so a run whose
final item yields no content can end with a non-empty buffer. -/
theorem C3_flush_amended (c : OrchCtx) (siteId : String)
    (drive : DriveInfo) (lastDrive : Bool) (n idx : Nat)
    (item : ItemDetails) (st st1 : OrchSt) :
    (orchGetContent c siteId drive item st = (none, st1) →
      (stepItem c siteId drive lastDrive n idx item st).1.store = st.store ∧
      (stepItem c siteId drive lastDrive n idx item st).1.buffer = st.buffer) ∧
    (∀ s, orchGetContent c siteId drive item st = (some s, st1) → s ≠ "" →
      ¬(st1.total % c.bulkItemCount = 0 ∨ (idx = n - 1 ∧ lastDrive = true)) →
      (stepItem c siteId drive lastDrive n idx item st).1.store = st.store ∧
      (stepItem c siteId drive lastDrive n idx item st).1.buffer =
        st1.buffer ++ c.split s (itemMeta siteId item)) ∧
    (∀ s ids, orchGetContent c siteId drive item st = (some s, st1) → s ≠ "" →
      (st1.total % c.bulkItemCount = 0 ∨ (idx = n - 1 ∧ lastDrive = true)) →
      (ingest_chunks_with_embeddings_to_astra_db c.astraDryRun
        c.astraMaxRetries c.astraRetryDelay
        (c.addAttempts st1.flushCalls)).1 = .ok (some ids) →
      stepItem c siteId drive lastDrive n idx item st =
        ({ st1 with
            flushCalls := st1.flushCalls + 1
            insertedDocs := st1.insertedDocs + ids.length
            insertedItems := st1.insertedItems + c.bulkItemCount
            store := st1.store ++
              [st1.buffer ++ c.split s (itemMeta siteId item)]
            trace := st1.trace ++
              [Ev.flush (st1.buffer ++ c.split s (itemMeta siteId item)),
               Ev.markItem item.id]
            buffer := []
            total := st1.total + 1
            processedItems := mark_item_as_processed st1.processedItems item.id
          }, none)) := by
  have hpres := orchGetContent_fields c siteId drive item st
  refine ⟨?_, ?_, ?_⟩
  · intro h
    have h2 : (orchGetContent c siteId drive item st).2 = st1 := by rw [h]
    have hb : st1.store = st.store ∧ st1.buffer = st.buffer := by
      rw [← h2]; exact ⟨hpres.2.1, hpres.2.2.1⟩
    simp [stepItem, h, hb.1, hb.2]
  · intro s h hs hcond
    have h2 : (orchGetContent c siteId drive item st).2 = st1 := by rw [h]
    have hb : st1.store = st.store := by rw [← h2]; exact hpres.2.1
    simp [stepItem, h, hs, hcond, hb]
  · intro s ids h hs hcond hing
    simp [stepItem, h, hs, hcond, hing]

/-- Concrete instance of the amended C3: the first contentful item hits
the cadence boundary (count 0 is a multiple of 10), so its iteration
flushes the buffer as one committed batch and then marks the item. -/
theorem C3_witness :
    stepItem ctxA "site1" driveD1 false 3 0 itemAtxt initOrchSt =
      ({ stV1 with
          flushCalls := stV1.flushCalls + 1
          insertedDocs := stV1.insertedDocs + 1
          insertedItems := stV1.insertedItems + 10
          store := stV1.store ++
            [stV1.buffer ++ ctxA.split "AAA" (itemMeta "site1" itemAtxt)]
          trace := stV1.trace ++
            [Ev.flush (stV1.buffer ++ ctxA.split "AAA" (itemMeta "site1" itemAtxt)),
             Ev.markItem "i1"]
          buffer := []
          total := stV1.total + 1
          processedItems := mark_item_as_processed stV1.processedItems "i1"
        }, none) := by
  have h := (C3_flush_amended ctxA "site1" driveD1 false 3 0 itemAtxt
    initOrchSt stV1).2.2 "AAA" ["x1"] (by decide) (by decide) (by decide)
    (by decide)
  simpa using h

/-- C10.  In dry-run mode the ingest returns None (not a list of
inserted ids) without attempting the store, while the orchestrator
unconditionally applies len to the returned value at every flush
boundary: in run D, whose single item yields content and immediately
hits the cadence boundary, the run aborts with the TypeError instead of
completing.  (With both handlers in dry-run mode the canned drive name
is outside the hardcoded drive whitelist, so the boundary is never
reached; the failure needs a run that reaches a flush with the ingest
handler in dry-run, as here.) -/
theorem C10_dry_run_type_error :
    (∀ (mr rd : Nat) (f : Nat → AddResult),
      ingest_chunks_with_embeddings_to_astra_db true mr rd f =
        (IngRes.ok none, 0, [])) ∧
    ctxD.astraDryRun = true ∧
    (process_all_sharepoint_files_by_site_name ctxD).2 =
      some RunErr.typeError := by
  exact ⟨fun mr rd f => rfl, rfl, by decide⟩
